import Mathlib

/-!
Verification of the `material-icons` build-time code generator (`build.rs`).

The generator reads `icons.json` (a list of icon requests), resolves each
request to an asset path `icons/<name>/<filled-><style>.svg`, checks the file
exists (panicking otherwise), groups resolved assets by icon name in a
`HashMap<String, Vec<(IconInfo, PathBuf)>>`, and emits Rust source: a style
enum, one byte constant per resolved asset, one dispatch function per icon
group, and one global dispatch function.

We embed the pipeline shallowly: the filesystem is a function from path
strings to optional byte lists, the `HashMap` grouping is an association list
that preserves key first-insertion order and appends within a key (entry
push), and the nondeterministic `HashMap` iteration order of the emission
loop is modelled by quantifying over permutations of the group list.  The
semantics of the generated `match`-based dispatch code (first arm wins,
wildcard arm panics) is modelled by a recursive first-match lookup.
-/

set_option autoImplicit false
set_option maxRecDepth 16000

namespace MaterialIcons

/-- `const SHIPPED_ICONS_PATH: &str = "icons";` from `build.rs`. -/
def SHIPPED_ICONS_PATH : String := "icons"

/-- `const CONFIG_FILE: &str = "icons.json";` from `build.rs`. -/
def CONFIG_FILE : String := "icons.json"

/-- The `IconStyle` enum of `build.rs` (serde tags `outlined`/`rounded`/`sharp`,
default `Outlined`). -/
inductive IconStyle where
  | Outlined
  | Rounded
  | Sharp
deriving DecidableEq, Repr

/-- `#[default]` on `IconStyle::Outlined`. -/
def IconStyle.styleDefault : IconStyle := .Outlined

/-- The `IconInfo` struct of `build.rs`: name, style (serde default), filled
(serde default `false`). -/
structure IconInfo where
  name : String
  style : IconStyle
  filled : Bool
deriving DecidableEq, Repr

/-- `impl From<String> for IconInfo`: bare name, default style, `filled: false`. -/
def IconInfo.fromString (name : String) : IconInfo :=
  { name := name, style := IconStyle.styleDefault, filled := false }

/-- The untagged `Icon` enum of `build.rs`: a manifest entry is either a fully
configured record or a bare name string. -/
inductive Icon where
  | Configured (info : IconInfo)
  | Simple (name : String)
deriving DecidableEq, Repr

/-- `impl From<Icon> for IconInfo`. -/
def Icon.toIconInfo : Icon → IconInfo
  | .Simple name => IconInfo.fromString name
  | .Configured info => info

/-- The lowercase style tag used in `file_name` in `build.rs`
(`match icon.style { Outlined => "outlined", ... }`). -/
def styleFileTag : IconStyle → String
  | .Outlined => "outlined"
  | .Rounded => "rounded"
  | .Sharp => "sharp"

/-- The `file_name` computed in the main loop of `build.rs`:
`format!("{}{}.svg", if icon.filled { "filled-" } else { "" }, <style tag>)`. -/
def file_name (icon : IconInfo) : String :=
  (if icon.filled then "filled-" else "") ++ styleFileTag icon.style ++ ".svg"

/-- `PathBuf::join`: paths are modelled as strings with `/` separators. -/
def pathJoin (a b : String) : String := a ++ "/" ++ b

/-- The candidate asset path of an icon request, from the main loop of
`build.rs`: `PathBuf::from(SHIPPED_ICONS_PATH).join(&icon.name).join(file_name)`. -/
def iconPath (icon : IconInfo) : String :=
  pathJoin (pathJoin SHIPPED_ICONS_PATH icon.name) (file_name icon)

/-- `str::to_uppercase` from the Rust standard library, modelled
character-wise (icon names are ASCII, where Rust uppercases exactly the
letters `a`..`z`, one character to one character). -/
def toUpperStr (s : String) : String := String.mk (s.data.map Char.toUpper)

/-- The uppercase style tag used in `const_name` in `build.rs`. -/
def styleConstTag : IconStyle → String
  | .Outlined => "OUTLINED"
  | .Rounded => "ROUNDED"
  | .Sharp => "SHARP"

/-- The `const_name` computed in the emission loop of `build.rs`:
`format!("ICON_{}_{}{}", name.to_uppercase(), if info.filled { "FILLED_" } else { "" }, <style tag>)`.
`name` is the group key, which always equals the own name of the request. -/
def const_name (name : String) (style : IconStyle) (filled : Bool) : String :=
  "ICON_" ++ toUpperStr name ++ "_" ++ (if filled then "FILLED_" else "") ++ styleConstTag style

/-- The filesystem: bytes are `List Nat`, a path that maps to `none` does not
exist (`path.exists()` false), otherwise `include_bytes!` embeds the mapped
bytes verbatim. -/
def Assets : Type := String → Option (List Nat)

/-- One group entry of the `HashMap<String, Vec<(IconInfo, PathBuf)>>`:
the key (icon name) and the pushed `(IconInfo, PathBuf)` pairs in push order. -/
def Groups : Type := List (String × List (IconInfo × String))

/-- `HashMap::entry(name)`: `Occupied => push`, `Vacant => insert(vec![..])`.
Modelled on an association list that keeps first-insertion key order. -/
def insertGroup (groups : Groups) (icon : IconInfo) (path : String) : Groups :=
  match groups with
  | [] => [(icon.name, [(icon, path)])]
  | (k, vs) :: rest =>
    if k = icon.name then (k, vs ++ [(icon, path)]) :: rest
    else (k, vs) :: insertGroup rest icon path

/-- Association-list lookup: the group stored under a key, if any. -/
def lookupGroup (groups : Groups) (name : String) : Option (List (IconInfo × String)) :=
  match groups with
  | [] => none
  | (k, vs) :: rest => if k = name then some vs else lookupGroup rest name

/-- The generation-time fatal errors of `build.rs` reachable from the resolver
loop: `panic!("Icon {} not found at {}", ...)`. -/
inductive BuildError where
  | AssetNotFound (name : String) (path : String)
deriving DecidableEq, Repr

/-- The resolver/registry loop of `build.rs` `main`: for each request compute
the path, panic with the icon name and path if it does not exist, otherwise
push it into the grouping map. -/
def resolveIcons (assets : Assets) : List IconInfo → Groups → Except BuildError Groups
  | [], groups => .ok groups
  | icon :: rest, groups =>
    let path := iconPath icon
    match assets path with
    | some _ => resolveIcons assets rest (insertGroup groups icon path)
    | none => .error (.AssetNotFound icon.name path)

/-- The whole pipeline up to the registry: resolve every manifest request
starting from the empty map. -/
def runPipeline (assets : Assets) (config : List IconInfo) : Except BuildError Groups :=
  resolveIcons assets config []

/-! ### Semantics of the generated dispatch code

`build.rs` emits, per group, `pub fn icon_<name>(style, filled)` whose body is a
`match (style, filled)` with one arm per pushed variant (in push order) and a
wildcard `panic!` arm, and a global `pub fn icon(name, style, filled)` whose
body matches `name.as_ref()` with one arm per group and a wildcard `panic!`
arm.  A Rust `match` takes the first matching arm, so the per-icon dispatch is
a first-match lookup over the variant list; the constant of each arm was bound by
`include_bytes!` to the bytes of the resolved path of the variant. -/

/-- Outcome of calling the generated global `icon` function: the embedded
bytes, the per-icon wildcard panic (`"there is no such icon"`), or the global
wildcard panic (`"there is no icon called {value}"`). -/
inductive DispatchResult where
  | found (bytes : List Nat)
  | NoSuchVariant
  | NoSuchIcon
deriving DecidableEq, Repr

/-- First-match semantics of the generated per-icon `match (style, filled)`:
the path whose constant the first matching arm names, if any arm matches. -/
def dispatchVariant (variants : List (IconInfo × String)) (style : IconStyle)
    (filled : Bool) : Option String :=
  match variants with
  | [] => none
  | (info, path) :: rest =>
    if info.style = style ∧ info.filled = filled then some path
    else dispatchVariant rest style filled

/-- Semantics of the generated global `icon` function: match the name against
the group arms (group keys are distinct, so first-match equals lookup), then
run the per-icon match; the matched constant holds the `include_bytes!` of its
path. -/
def runIcon (assets : Assets) (groups : Groups) (name : String)
    (style : IconStyle) (filled : Bool) : DispatchResult :=
  match lookupGroup groups name with
  | none => .NoSuchIcon
  | some variants =>
    match dispatchVariant variants style filled with
    | none => .NoSuchVariant
    | some path => .found ((assets path).getD [])

/-! ### The emitted source text

Modelled closely after the `codegen`-built output of `build.rs` (whitespace
simplified, the static lifetime annotation on the return types elided).  What the claims need from
the text model is which items appear and in which order: the emission loop
iterates the `HashMap`, whose iteration order is arbitrary, so the text is a
function of the chosen group order. -/

/-- The emitted `IconStyle` enum declaration. -/
def emitEnum : String :=
  "pub enum IconStyle \x7b Outlined, Rounded, Sharp \x7d"

/-- The `{:?}` debug tag of a style, used in the emitted match arms. -/
def styleDebugTag : IconStyle → String
  | .Outlined => "Outlined"
  | .Rounded => "Rounded"
  | .Sharp => "Sharp"

/-- One emitted constant:
`const {const_name}: &[u8] = include_bytes!("{path}");`. -/
def emitConst (name : String) (info : IconInfo) (path : String) : String :=
  "const " ++ const_name name info.style info.filled ++
    ": &[u8] = include_bytes!(\"" ++ path ++ "\");"

/-- One emitted per-icon match arm:
`(IconStyle::{:?}, {}) => {const_name},`. -/
def matchVariantLine (name : String) (info : IconInfo) : String :=
  "(IconStyle::" ++ styleDebugTag info.style ++ ", " ++
    (if info.filled then "true" else "false") ++ ") => " ++
    const_name name info.style info.filled ++ ","

/-- Everything emitted for one group, in emission order: the constants of its
variants (in push order), then the `icon_<name>` function whose match arms are
in push order followed by the wildcard panic arm. -/
def emitGroup (entry : String × List (IconInfo × String)) : String :=
  String.intercalate "\n" (entry.2.map (fun v => emitConst entry.1 v.1 v.2)) ++
    "\npub fn icon_" ++ entry.1 ++
    "(style: IconStyle, filled: bool) -> &[u8] \x7b match (style, filled) \x7b " ++
    String.intercalate "\n" (entry.2.map (fun v => matchVariantLine entry.1 v.1)) ++
    " _ => panic!(\"there is no such icon\") \x7d \x7d"

/-- One emitted global match arm: `{name:?} => icon_{name}(style, filled),`. -/
def nameVariantLine (name : String) : String :=
  "\"" ++ name ++ "\" => icon_" ++ name ++ "(style, filled),"

/-- The emitted global `icon` function, with one arm per group in iteration
order and the wildcard panic arm. -/
def emitGlobal (groups : Groups) : String :=
  "pub fn icon(name: impl AsRef<str>, style: IconStyle, filled: bool) -> &[u8] \x7b match name.as_ref() \x7b " ++
    String.intercalate "\n" (groups.map (fun g => nameVariantLine g.1)) ++
    " value => panic!(\"there is no icon called \x7bvalue\x7d\") \x7d \x7d"

/-- The whole emitted file for one iteration order of the registry: the enum,
then the items of each group, then the global function. -/
def emitScopeOrdered (groups : Groups) : String :=
  emitEnum ++ "\n" ++ String.intercalate "\n" (groups.map emitGroup) ++ "\n" ++
    emitGlobal groups

/-! ### Manifest loading and the docsrs/normal mode split (`load_icons`, `main`) -/

/-- Outcome of `load_icons`: `Ok` with the normalized requests, the
`io::Error` from `read_to_string` (propagated with `?`), or the
`.expect(..)` panic on malformed JSON. -/
inductive LoadResult where
  | ok (icons : List IconInfo)
  | ioError
  | parsePanic
deriving DecidableEq, Repr

/-- `load_icons(dir)`: read `<dir>/icons.json` (an `io::Error` is returned to
the caller), parse it as a `Vec<Icon>` (a parse failure panics), and normalize
each entry via `From<Icon> for IconInfo`.  `readFile` models the filesystem
read and `parseIcons` the serde-json parse. -/
def load_icons (readFile : String → Option String)
    (parseIcons : String → Option (List Icon)) (dir : String) : LoadResult :=
  match readFile (pathJoin dir CONFIG_FILE) with
  | none => .ioError
  | some content =>
    match parseIcons content with
    | none => .parsePanic
    | some icons => .ok (icons.map Icon.toIconInfo)

/-- Outcome of the config-selection block at the top of `main`: either proceed
with a request list and config dir, or die in a panic. -/
inductive ConfigOutcome where
  | proceed (config : List IconInfo) (configDir : String)
  | fatal
deriving DecidableEq, Repr

/-- The `(config, config_dir)` selection in `main`.  In docsrs mode with
`SOURCE_DIR` set, `load_icons(..).unwrap_or_default()` turns an `io::Error`
into an empty list (a parse panic still aborts); with `SOURCE_DIR` unset the
list is empty.  In normal mode the manifest directory comes from the upward
`Cargo.toml` walk (`none` models the walk exhausting its ancestors and
panicking), and `.expect(..)` turns an `io::Error` into a panic. -/
def selectConfig (docsrs : Bool) (sourceDir : Option String)
    (readFile : String → Option String) (parseIcons : String → Option (List Icon))
    (manifestDir : Option String) : ConfigOutcome :=
  if docsrs then
    match sourceDir with
    | some dir =>
      match load_icons readFile parseIcons dir with
      | .ok icons => .proceed icons dir
      | .ioError => .proceed [] dir
      | .parsePanic => .fatal
    | none => .proceed [] ""
  else
    match manifestDir with
    | none => .fatal
    | some dir =>
      match load_icons readFile parseIcons dir with
      | .ok icons => .proceed icons dir
      | .ioError => .fatal
      | .parsePanic => .fatal

/-! ### Concrete fixtures used by witnesses and counterexamples -/

/-- The step function of the registry loop: push one resolved request. -/
def buildStep (g : Groups) (i : IconInfo) : Groups := insertGroup g i (iconPath i)

/-- The registry produced by pushing every request of a list, in order,
starting from a given map. -/
def buildGroups (acc : Groups) (config : List IconInfo) : Groups :=
  List.foldl buildStep acc config

/-- A filesystem with one non-empty asset: `icons/home/outlined.svg`. -/
def exAssets : Assets :=
  fun p => if p = "icons/home/outlined.svg" then some [60, 115, 118, 103] else none

/-- The request declared by the manifest `["home"]`. -/
def exIcon : IconInfo := { name := "home", style := .Outlined, filled := false }

/-- The manifest `["home"]` after normalization. -/
def exConfig : List IconInfo := [exIcon]

/-- The registry built from `exConfig` over `exAssets`. -/
def exGroups : Groups := [("home", [(exIcon, "icons/home/outlined.svg")])]

/-- A filesystem on which `icons/a/outlined.svg` exists but is EMPTY. -/
def emptyFileAssets : Assets :=
  fun p => if p = "icons/a/outlined.svg" then some [] else none

/-- A one-request manifest whose (existing) asset file is empty. -/
def emptyFileConfig : List IconInfo := [{ name := "a", style := .Outlined, filled := false }]

/-- The registry built from `emptyFileConfig` over `emptyFileAssets`. -/
def emptyFileGroups : Groups :=
  [("a", [({ name := "a", style := .Outlined, filled := false }, "icons/a/outlined.svg")])]

/-- A filesystem with no files at all. -/
def noAssets : Assets := fun _ => none

/-- A filesystem holding the assets of the colliding manifest `collideConfig`. -/
def collideAssets : Assets :=
  fun p =>
    if p = "icons/a/filled-outlined.svg" then some [1]
    else if p = "icons/a_filled/outlined.svg" then some [2] else none

/-- Two distinct requests whose constant names collide:
`("a", Outlined, filled)` and `("a_filled", Outlined, not filled)` both yield
`ICON_A_FILLED_OUTLINED`. -/
def collideConfig : List IconInfo :=
  [{ name := "a", style := .Outlined, filled := true },
   { name := "a_filled", style := .Outlined, filled := false }]

/-- A filesystem holding outlined assets for icons `a` and `b`. -/
def abAssets : Assets :=
  fun p =>
    if p = "icons/a/outlined.svg" then some [1]
    else if p = "icons/b/outlined.svg" then some [2] else none

/-- A two-icon manifest, used to exhibit iteration-order dependence. -/
def abConfig : List IconInfo :=
  [{ name := "a", style := .Outlined, filled := false },
   { name := "b", style := .Outlined, filled := false }]

/-- The registry built from `abConfig` over `abAssets`, in one iteration
order; its reversal is the other possible `HashMap` iteration order. -/
def abGroups : Groups :=
  [("a", [({ name := "a", style := .Outlined, filled := false }, "icons/a/outlined.svg")]),
   ("b", [({ name := "b", style := .Outlined, filled := false }, "icons/b/outlined.svg")])]

/-- A manifest declaring the same (name, style, filled) request twice. -/
def dupConfig : List IconInfo := [exIcon, exIcon]

/-- The registry built from `dupConfig` over `exAssets`: both occurrences are
pushed into the same group. -/
def dupGroups : Groups :=
  [("home", [(exIcon, "icons/home/outlined.svg"), (exIcon, "icons/home/outlined.svg")])]

/-- A read function that always fails: the manifest file is missing or
unreadable at every path. -/
def noRead : String → Option String := fun _ => none

/-- A parse function (never reached when the read fails). -/
def noParse : String → Option (List Icon) := fun _ => none

/-! ### Helper lemmas -/

theorem strDataAppend (a b : String) : (a ++ b).data = a.data ++ b.data := by
  cases a; cases b; rfl

theorem strAppendAssoc (a b c : String) : a ++ b ++ c = a ++ (b ++ c) := by
  cases a; cases b; cases c
  show String.mk _ = String.mk _
  simp [String.append, List.append_assoc]

theorem strAppendLeftCancel {a b c : String} (h : a ++ b = a ++ c) : b = c := by
  have hd : (a ++ b).data = (a ++ c).data := congrArg String.data h
  rw [strDataAppend, strDataAppend] at hd
  have hbc : b.data = c.data := List.append_cancel_left hd
  cases b; cases c
  exact congrArg String.mk hbc

theorem lookupGroup_insertGroup (g : Groups) (icon : IconInfo) (p : String) (k : String) :
    lookupGroup (insertGroup g icon p) k =
      if icon.name = k then some (((lookupGroup g k).getD []) ++ [(icon, p)])
      else lookupGroup g k := by
  induction g with
  | nil =>
    by_cases h : icon.name = k <;> simp [insertGroup, lookupGroup, h]
  | cons e rest ih =>
    obtain ⟨k', vs⟩ := e
    by_cases h1 : k' = icon.name
    · subst h1
      by_cases h2 : icon.name = k
      · subst h2
        simp [insertGroup, lookupGroup]
      · simp [insertGroup, lookupGroup, h2]
    · by_cases h2 : k' = k
      · subst h2
        have h3 : ¬ icon.name = k' := fun hc => h1 hc.symm
        simp [insertGroup, lookupGroup, h1, h3]
      · simp [insertGroup, lookupGroup, h1, h2, ih]

theorem lookupGroup_buildGroups_aux (config : List IconInfo) (acc : Groups) (k : String) :
    lookupGroup (buildGroups acc config) k =
      if (config.filter (fun i => i.name == k)) = [] then lookupGroup acc k
      else some (((lookupGroup acc k).getD []) ++
        (config.filter (fun i => i.name == k)).map (fun i => (i, iconPath i))) := by
  induction config generalizing acc with
  | nil => simp [buildGroups]
  | cons i rest ih =>
    have hstep : buildGroups acc (i :: rest) = buildGroups (insertGroup acc i (iconPath i)) rest := rfl
    rw [hstep, ih]
    by_cases h : i.name = k
    · have hf : (i :: rest).filter (fun j => j.name == k) =
          i :: rest.filter (fun j => j.name == k) := by
        simp [List.filter_cons, h]
      rw [hf]
      rcases hrest : rest.filter (fun j => j.name == k) with _ | ⟨j, js⟩
      · simp [lookupGroup_insertGroup, h]
      · simp only [hrest, reduceCtorEq, if_neg, List.map_cons,
          lookupGroup_insertGroup, h, if_pos]
        simp [List.append_assoc]
    · have hf : (i :: rest).filter (fun j => j.name == k) =
          rest.filter (fun j => j.name == k) := by
        simp [List.filter_cons, h]
      rw [hf, lookupGroup_insertGroup, if_neg h]

/-- Characterization of the registry: the group stored under key `k` is
exactly the manifest requests named `k`, in declaration order, each paired
with its resolved path. -/
theorem lookupGroup_buildGroups (config : List IconInfo) (k : String) :
    lookupGroup (buildGroups [] config) k =
      if (config.filter (fun i => i.name == k)) = [] then none
      else some ((config.filter (fun i => i.name == k)).map (fun i => (i, iconPath i))) := by
  have := lookupGroup_buildGroups_aux config [] k
  simpa [lookupGroup] using this

/-- When every declared asset exists, the resolver loop never panics and
returns the registry built by folding the requests in order. -/
theorem resolveIcons_ok (assets : Assets) (config : List IconInfo) (acc : Groups)
    (hval : ∀ i ∈ config, (assets (iconPath i)).isSome) :
    resolveIcons assets config acc = .ok (buildGroups acc config) := by
  induction config generalizing acc with
  | nil => rfl
  | cons i rest ih =>
    have hi := hval i (by simp)
    rcases h : assets (iconPath i) with _ | b
    · rw [h] at hi; simp at hi
    · have hstep : buildGroups acc (i :: rest) = buildGroups (insertGroup acc i (iconPath i)) rest := rfl
      rw [hstep]
      show (match assets (iconPath i) with
        | some _ => resolveIcons assets rest (insertGroup acc i (iconPath i))
        | none => Except.error (.AssetNotFound i.name (iconPath i))) = _
      rw [h]
      exact ih _ (fun j hj => hval j (by simp [hj]))

theorem dispatchVariant_some {vs : List (IconInfo × String)} {s : IconStyle}
    {f : Bool} {p : String} (h : dispatchVariant vs s f = some p) :
    ∃ info, (info, p) ∈ vs ∧ info.style = s ∧ info.filled = f := by
  induction vs with
  | nil => simp [dispatchVariant] at h
  | cons e rest ih =>
    obtain ⟨info, path⟩ := e
    simp only [dispatchVariant] at h
    split at h
    · rename_i hcond
      injection h with h
      subst h
      exact ⟨info, by simp, hcond.1, hcond.2⟩
    · obtain ⟨j, hj, hjs, hjf⟩ := ih h
      exact ⟨j, List.mem_cons_of_mem _ hj, hjs, hjf⟩

theorem dispatchVariant_isSome {vs : List (IconInfo × String)} {i : IconInfo}
    {p : String} (hm : (i, p) ∈ vs) {s : IconStyle} {f : Bool}
    (hs : i.style = s) (hf : i.filled = f) :
    ∃ q, dispatchVariant vs s f = some q := by
  induction vs with
  | nil => simp at hm
  | cons e rest ih =>
    obtain ⟨info, path⟩ := e
    by_cases hc : info.style = s ∧ info.filled = f
    · exact ⟨path, by simp [dispatchVariant, hc]⟩
    · rcases List.mem_cons.mp hm with heq | hmem
      · cases heq
        exact absurd ⟨hs, hf⟩ hc
      · obtain ⟨q, hq⟩ := ih hmem
        exact ⟨q, by simpa [dispatchVariant, hc] using hq⟩

/-- The per-icon dispatch is exactly a first-match search over the arms. -/
theorem dispatchVariant_eq_find (vs : List (IconInfo × String)) (s : IconStyle) (f : Bool) :
    dispatchVariant vs s f =
      (vs.find? (fun e => e.1.style == s && e.1.filled == f)).map Prod.snd := by
  induction vs with
  | nil => rfl
  | cons e rest ih =>
    obtain ⟨info, path⟩ := e
    by_cases hc : info.style = s ∧ info.filled = f
    · simp [dispatchVariant, List.find?, hc]
    · have hb : (info.style == s && info.filled == f) = false := by
        rcases not_and_or.mp hc with h | h <;> simp [h]
      simp only [dispatchVariant, if_neg hc, List.find?, hb]
      exact ih

/-- A successful pipeline run yields exactly the fold-built registry. -/
theorem runPipeline_ok_eq {assets : Assets} {config : List IconInfo} {groups : Groups}
    (hval : ∀ i ∈ config, (assets (iconPath i)).isSome)
    (hok : runPipeline assets config = .ok groups) :
    groups = buildGroups [] config := by
  have h := resolveIcons_ok assets config [] hval
  rw [runPipeline] at hok
  rw [h] at hok
  exact (Except.ok.inj hok).symm

/-- If the first missing request is hit, the resolver loop errors; more
precisely, whenever some request of the list has a missing asset, the loop
returns `AssetNotFound` for a missing request of the list. -/
theorem resolveIcons_error_of_missing (assets : Assets) (config : List IconInfo)
    (acc : Groups) (i : IconInfo) (hi : i ∈ config)
    (hmiss : assets (iconPath i) = none) :
    ∃ j, j ∈ config ∧ assets (iconPath j) = none ∧
      resolveIcons assets config acc = .error (.AssetNotFound j.name (iconPath j)) := by
  induction config generalizing acc with
  | nil => simp at hi
  | cons a rest ih =>
    rcases h : assets (iconPath a) with _ | b
    · exact ⟨a, by simp, h, by simp [resolveIcons, h]⟩
    · have hir : i ∈ rest := by
        rcases List.mem_cons.mp hi with rfl | hm
        · rw [h] at hmiss; exact absurd hmiss (by simp)
        · exact hm
      obtain ⟨j, hj, hjm, hje⟩ := ih (insertGroup acc a (iconPath a)) hir
      exact ⟨j, List.mem_cons_of_mem _ hj, hjm, by simpa [resolveIcons, h] using hje⟩

/-! ### The claims -/

/-- **C6**: for every icon request, the candidate asset path is
`<assets-root>/<name>/<filled-prefix><style-name>.svg`, where the filled
prefix is `filled-` exactly when the filled flag is set and the style name is
the lowercase tag of the style. -/
theorem c6_asset_path_formula (icon : IconInfo) :
    iconPath icon =
      SHIPPED_ICONS_PATH ++ "/" ++ icon.name ++ "/" ++
        (if icon.filled then "filled-" else "") ++ styleFileTag icon.style ++ ".svg" := by
  simp [iconPath, pathJoin, file_name, strAppendAssoc]

/-- **C8**: a manifest entry given as a bare name normalizes to the explicit
record with that name, style `Outlined`, and `filled = false`. -/
theorem c8_bare_name_defaults (name : String) :
    Icon.toIconInfo (.Simple name) =
      Icon.toIconInfo (.Configured { name := name, style := .Outlined, filled := false }) :=
  rfl

/-- **C2 counterexample**: the constant-name map is NOT injective over
distinct (name, style, filled) tuples: `("a", Outlined, filled)` and
`("a_filled", Outlined, unfilled)` are distinct but share the constant name
`ICON_A_FILLED_OUTLINED`, so a manifest containing both tuples refutes the
claim. -/
theorem c2_counterexample :
    const_name "a" IconStyle.Outlined true = const_name "a_filled" IconStyle.Outlined false ∧
      ("a", IconStyle.Outlined, true) ≠ ("a_filled", IconStyle.Outlined, false) := by
  exact ⟨by decide, by decide⟩

/-- **C2 amended**: the constant-name map is deterministic (it is a pure
function of the tuple), and for a FIXED name it is injective in the
(style, filled) pair: two requests with the same name and the same constant
name agree on style and filled flag. -/
theorem c2_amended_fixed_name_injective (n : String) (s s' : IconStyle) (f f' : Bool)
    (h : const_name n s f = const_name n s' f') : s = s' ∧ f = f' := by
  have h2 : ("ICON_" ++ toUpperStr n ++ "_") ++ ((if f then "FILLED_" else "") ++ styleConstTag s) =
      ("ICON_" ++ toUpperStr n ++ "_") ++ ((if f' then "FILLED_" else "") ++ styleConstTag s') := by
    simpa [const_name, strAppendAssoc] using h
  have h3 := strAppendLeftCancel h2
  cases s <;> cases s' <;> cases f <;> cases f' <;>
    first
      | exact ⟨rfl, rfl⟩
      | exact absurd h3 (by decide)

/-- Witness for C2 amended at a concrete input. -/
theorem c2_amended_witness :
    const_name "home" IconStyle.Rounded true = const_name "home" IconStyle.Rounded true ∧
      (IconStyle.Rounded = IconStyle.Rounded ∧ true = true) :=
  ⟨rfl, c2_amended_fixed_name_injective "home" IconStyle.Rounded IconStyle.Rounded true true rfl⟩

/-- **C5**: whenever some declared request has no backing asset file, the
pipeline terminates with `AssetNotFound` carrying the name and the computed
path of a missing request; no registry (and hence no output) is produced. -/
theorem c5_asset_not_found_fatal (assets : Assets) (config : List IconInfo)
    (i : IconInfo) (hi : i ∈ config) (hmiss : assets (iconPath i) = none) :
    ∃ j, j ∈ config ∧ assets (iconPath j) = none ∧
      runPipeline assets config = .error (.AssetNotFound j.name (iconPath j)) :=
  resolveIcons_error_of_missing assets config [] i hi hmiss

/-- Witness for C5: the manifest `["missing_icon"]` over an empty filesystem
aborts with `AssetNotFound` naming `missing_icon` and its expected path. -/
theorem c5_witness :
    (IconInfo.fromString "missing_icon" ∈ [IconInfo.fromString "missing_icon"] ∧
      noAssets (iconPath (IconInfo.fromString "missing_icon")) = none) ∧
    (∃ j, j ∈ [IconInfo.fromString "missing_icon"] ∧
      noAssets (iconPath j) = none ∧
      runPipeline noAssets [IconInfo.fromString "missing_icon"] =
        .error (.AssetNotFound j.name (iconPath j))) :=
  ⟨⟨by decide, rfl⟩,
    c5_asset_not_found_fatal noAssets [IconInfo.fromString "missing_icon"]
      (IconInfo.fromString "missing_icon") (by decide) rfl⟩

/-- **C1 counterexample**: a valid manifest (its only asset file exists) whose
asset file is EMPTY: the global dispatch returns the file bytes, which are
empty, refuting the "non-empty" part of the claim. -/
theorem c1_counterexample :
    emptyFileAssets (iconPath { name := "a", style := .Outlined, filled := false }) = some [] ∧
    runPipeline emptyFileAssets emptyFileConfig = .ok emptyFileGroups ∧
    runIcon emptyFileAssets emptyFileGroups "a" .Outlined false = .found [] :=
  ⟨rfl, rfl, rfl⟩

/-- **C1 amended**: for every valid manifest (every declared asset exists),
generation succeeds and every declared (name, style, filled) combination is
reachable through the global dispatch, returning bytes byte-for-byte
identical to the resolved asset file contents (hence non-empty exactly when
the file is non-empty). -/
theorem c1_amended_roundtrip (assets : Assets) (config : List IconInfo)
    (hval : ∀ i ∈ config, (assets (iconPath i)).isSome)
    (i : IconInfo) (hi : i ∈ config) :
    ∃ groups bytes, runPipeline assets config = .ok groups ∧
      assets (iconPath i) = some bytes ∧
      runIcon assets groups i.name i.style i.filled = .found bytes := by
  obtain ⟨bytes, hb⟩ := Option.isSome_iff_exists.mp (hval i hi)
  refine ⟨buildGroups [] config, bytes, resolveIcons_ok assets config [] hval, hb, ?_⟩
  have hfil : i ∈ config.filter (fun j => j.name == i.name) :=
    List.mem_filter.mpr ⟨hi, by simp⟩
  have hne : config.filter (fun j => j.name == i.name) ≠ [] := by
    intro h0
    rw [h0] at hfil
    simp at hfil
  have hlk := lookupGroup_buildGroups config i.name
  rw [if_neg hne] at hlk
  have hmem : (i, iconPath i) ∈
      (config.filter (fun j => j.name == i.name)).map (fun j => (j, iconPath j)) :=
    List.mem_map.mpr ⟨i, hfil, rfl⟩
  obtain ⟨q, hq⟩ := dispatchVariant_isSome hmem rfl rfl
  obtain ⟨j, hjmem, hjs, hjf⟩ := dispatchVariant_some hq
  obtain ⟨j', hj', hj'eq⟩ := List.mem_map.mp hjmem
  have hjj : j' = j := congrArg Prod.fst hj'eq
  have hqq : iconPath j' = q := congrArg Prod.snd hj'eq
  have hname : j'.name = i.name := by
    simpa using (List.mem_filter.mp hj').2
  have hji : j' = i := by
    have h1 : j'.style = i.style := by rw [hjj]; exact hjs
    have h2 : j'.filled = i.filled := by rw [hjj]; exact hjf
    cases j'; cases i
    simp_all
  rw [hji] at hqq
  simp [runIcon, hlk, hq, ← hqq, hb]

/-- Witness for C1 amended at the manifest `["home"]`. -/
theorem c1_witness :
    (∀ i ∈ exConfig, (exAssets (iconPath i)).isSome) ∧
    (∃ groups bytes, runPipeline exAssets exConfig = .ok groups ∧
      exAssets (iconPath exIcon) = some bytes ∧
      runIcon exAssets groups exIcon.name exIcon.style exIcon.filled = .found bytes) :=
  ⟨by decide, c1_amended_roundtrip exAssets exConfig (by decide) exIcon (by decide)⟩

/-- **C7**: the generated dispatch functions fail exactly on undeclared
inputs: a declared name with an undeclared (style, filled) pair hits the
per-icon wildcard arm (`NoSuchVariant`); an undeclared name hits the global
wildcard arm (`NoSuchIcon`); and for the empty manifest generation succeeds
and every input hits the global wildcard arm. -/
theorem c7_undeclared_inputs_fail (assets : Assets) (config : List IconInfo) (groups : Groups)
    (hval : ∀ i ∈ config, (assets (iconPath i)).isSome)
    (hok : runPipeline assets config = .ok groups) :
    (∀ n s f, (∃ i ∈ config, i.name = n) →
        (∀ i ∈ config, ¬(i.name = n ∧ i.style = s ∧ i.filled = f)) →
        runIcon assets groups n s f = .NoSuchVariant) ∧
    (∀ n s f, (∀ i ∈ config, i.name ≠ n) → runIcon assets groups n s f = .NoSuchIcon) ∧
    (runPipeline assets ([] : List IconInfo) = .ok [] ∧
      ∀ n s f, runIcon assets ([] : Groups) n s f = .NoSuchIcon) := by
  have hg := runPipeline_ok_eq hval hok
  subst hg
  refine ⟨?_, ?_, rfl, fun n s f => rfl⟩
  · intro n s f hdecl hnot
    obtain ⟨i0, hi0, hi0n⟩ := hdecl
    have hfil : i0 ∈ config.filter (fun j => j.name == n) :=
      List.mem_filter.mpr ⟨hi0, by simp [hi0n]⟩
    have hne : config.filter (fun j => j.name == n) ≠ [] := by
      intro h0
      rw [h0] at hfil
      simp at hfil
    have hlk := lookupGroup_buildGroups config n
    rw [if_neg hne] at hlk
    rcases hd : dispatchVariant ((config.filter (fun j => j.name == n)).map
        (fun j => (j, iconPath j))) s f with _ | p
    · simp [runIcon, hlk, hd]
    · obtain ⟨j, hjmem, hjs, hjf⟩ := dispatchVariant_some hd
      obtain ⟨j', hj', hj'eq⟩ := List.mem_map.mp hjmem
      have hjj : j' = j := congrArg Prod.fst hj'eq
      have hmem : j' ∈ config := (List.mem_filter.mp hj').1
      have hnm : j'.name = n := by simpa using (List.mem_filter.mp hj').2
      have hstyle : j'.style = s := by rw [hjj]; exact hjs
      have hfill : j'.filled = f := by rw [hjj]; exact hjf
      exact absurd ⟨hnm, hstyle, hfill⟩ (hnot j' hmem)
  · intro n s f hnone
    have hnil : config.filter (fun j => j.name == n) = [] := by
      rw [List.filter_eq_nil_iff]
      intro a ha
      simp [hnone a ha]
    have hlk := lookupGroup_buildGroups config n
    rw [if_pos hnil] at hlk
    simp [runIcon, hlk]

/-- Witness for C7 at the manifest `["home"]`. -/
theorem c7_witness :
    (∀ i ∈ exConfig, (exAssets (iconPath i)).isSome) ∧
    runPipeline exAssets exConfig = .ok exGroups ∧
    ((∀ n s f, (∃ i ∈ exConfig, i.name = n) →
        (∀ i ∈ exConfig, ¬(i.name = n ∧ i.style = s ∧ i.filled = f)) →
        runIcon exAssets exGroups n s f = .NoSuchVariant) ∧
      (∀ n s f, (∀ i ∈ exConfig, i.name ≠ n) → runIcon exAssets exGroups n s f = .NoSuchIcon) ∧
      (runPipeline exAssets ([] : List IconInfo) = .ok [] ∧
        ∀ n s f, runIcon exAssets ([] : Groups) n s f = .NoSuchIcon)) :=
  ⟨by decide, rfl, c7_undeclared_inputs_fail exAssets exConfig exGroups (by decide) rfl⟩

/-- **C9 counterexample**: declaring the same request twice does NOT overwrite
the earlier entry: both occurrences are pushed and the dispatch table for the
icon keeps two (identical) arms. -/
theorem c9_counterexample :
    runPipeline exAssets dupConfig = .ok dupGroups ∧
    lookupGroup dupGroups "home" =
      some [(exIcon, "icons/home/outlined.svg"), (exIcon, "icons/home/outlined.svg")] :=
  ⟨rfl, rfl⟩

/-- **C9 amended**: duplicate (name, style, filled) declarations are neither
rejected nor deduplicated: every group holds one entry per occurrence, in
declaration order, and the generated per-icon match resolves to the FIRST
matching arm (earlier entry wins; duplicates name the same constant and path,
so behavior is unchanged). -/
theorem c9_amended_duplicates_kept_first_wins (assets : Assets) (config : List IconInfo)
    (groups : Groups) (hval : ∀ i ∈ config, (assets (iconPath i)).isSome)
    (hok : runPipeline assets config = .ok groups)
    (k : String) (vs : List (IconInfo × String)) (hvs : lookupGroup groups k = some vs) :
    vs = (config.filter (fun i => i.name == k)).map (fun i => (i, iconPath i)) ∧
    ∀ s f, dispatchVariant vs s f =
      (vs.find? (fun e => e.1.style == s && e.1.filled == f)).map Prod.snd := by
  have hg := runPipeline_ok_eq hval hok
  subst hg
  have hlk := lookupGroup_buildGroups config k
  refine ⟨?_, fun s f => dispatchVariant_eq_find vs s f⟩
  have h2 := hvs.symm.trans hlk
  by_cases hnil : config.filter (fun i => i.name == k) = []
  · rw [if_pos hnil] at h2
    cases h2
  · rw [if_neg hnil] at h2
    exact Option.some.inj h2

/-- Witness for C9 amended at a manifest declaring `home` twice. -/
theorem c9_witness :
    ((∀ i ∈ dupConfig, (exAssets (iconPath i)).isSome) ∧
      runPipeline exAssets dupConfig = .ok dupGroups ∧
      lookupGroup dupGroups "home" =
        some [(exIcon, "icons/home/outlined.svg"), (exIcon, "icons/home/outlined.svg")]) ∧
    ([(exIcon, "icons/home/outlined.svg"), (exIcon, "icons/home/outlined.svg")] =
        (dupConfig.filter (fun i => i.name == "home")).map (fun i => (i, iconPath i)) ∧
      ∀ s f, dispatchVariant
          [(exIcon, "icons/home/outlined.svg"), (exIcon, "icons/home/outlined.svg")] s f =
        ([(exIcon, "icons/home/outlined.svg"), (exIcon, "icons/home/outlined.svg")].find?
          (fun e => e.1.style == s && e.1.filled == f)).map Prod.snd) :=
  ⟨⟨by decide, rfl, rfl⟩,
    c9_amended_duplicates_kept_first_wins exAssets dupConfig dupGroups (by decide) rfl
      "home" [(exIcon, "icons/home/outlined.svg"), (exIcon, "icons/home/outlined.svg")] rfl⟩

/-- **C4 counterexample**: two distinct requests whose constant names collide
(`ICON_A_FILLED_OUTLINED`), yet generation SUCCEEDS: no `NamingCollision`
detection or failure exists in the pipeline. -/
theorem c4_counterexample :
    const_name "a" IconStyle.Outlined true = const_name "a_filled" IconStyle.Outlined false ∧
    ({ name := "a", style := .Outlined, filled := true } : IconInfo) ≠
      { name := "a_filled", style := .Outlined, filled := false } ∧
    runPipeline collideAssets collideConfig = .ok
      [("a", [({ name := "a", style := .Outlined, filled := true },
          "icons/a/filled-outlined.svg")]),
       ("a_filled", [({ name := "a_filled", style := .Outlined, filled := false },
          "icons/a_filled/outlined.svg")])] :=
  ⟨by decide, by decide, rfl⟩

/-- **C4 amended**: the pipeline performs no constant-name collision check:
for every manifest whose assets all exist, generation succeeds outright (the
only generation-time failure is `AssetNotFound`), even when distinct tuples
share a constant name, in which case the emitted output simply repeats the
name. -/
theorem c4_amended_no_collision_check (assets : Assets) (config : List IconInfo)
    (hval : ∀ i ∈ config, (assets (iconPath i)).isSome) :
    runPipeline assets config = .ok (buildGroups [] config) :=
  resolveIcons_ok assets config [] hval

/-- Witness for C4 amended at the colliding manifest. -/
theorem c4_witness :
    (∀ i ∈ collideConfig, (collideAssets (iconPath i)).isSome) ∧
    runPipeline collideAssets collideConfig = .ok (buildGroups [] collideConfig) :=
  ⟨by decide, c4_amended_no_collision_check collideAssets collideConfig (by decide)⟩

/-- **C3 counterexample**: the emitted source text is NOT independent of the
`HashMap` iteration order: the two-icon registry of `abConfig`, iterated in
the two possible orders, yields different output bytes. -/
theorem c3_counterexample :
    runPipeline abAssets abConfig = .ok abGroups ∧
    abGroups.reverse.Perm abGroups ∧
    emitScopeOrdered abGroups.reverse ≠ emitScopeOrdered abGroups :=
  ⟨rfl, by decide, by decide⟩

/-- **C3 amended**: emission is deterministic for a fixed iteration order of
the registry, and the multiset of per-group emitted chunks is
order-independent; but the concatenated output text varies with the
(arbitrary) `HashMap` iteration order. -/
theorem c3_amended_order_dependence (g g' : Groups) (h : g.Perm g') :
    (g.map emitGroup).Perm (g'.map emitGroup) ∧
    (g = g' → emitScopeOrdered g = emitScopeOrdered g') :=
  ⟨h.map emitGroup, fun he => by rw [he]⟩

/-- Witness for C3 amended at the two-icon registry. -/
theorem c3_witness :
    abGroups.Perm abGroups.reverse ∧
    ((abGroups.map emitGroup).Perm (abGroups.reverse.map emitGroup) ∧
      (abGroups = abGroups.reverse →
        emitScopeOrdered abGroups = emitScopeOrdered abGroups.reverse)) :=
  ⟨by decide, c3_amended_order_dependence abGroups abGroups.reverse (by decide)⟩

/-- **C10**: when the manifest file is missing or unreadable, docs-generation
mode with `SOURCE_DIR` set silently discards the I/O error and proceeds with
an empty request list (whose output holds only the style enum and the global
dispatch function), whereas normal mode is fatal. -/
theorem c10_docsrs_discards_io_error (readFile : String → Option String)
    (parseIcons : String → Option (List Icon)) (dir : String) (assets : Assets)
    (hread : readFile (pathJoin dir CONFIG_FILE) = none) :
    selectConfig true (some dir) readFile parseIcons (some dir) = .proceed [] dir ∧
    selectConfig false (some dir) readFile parseIcons (some dir) = .fatal ∧
    runPipeline assets [] = .ok [] ∧
    emitScopeOrdered [] = emitEnum ++ "\n\n" ++ emitGlobal [] := by
  refine ⟨?_, ?_, rfl, by decide⟩
  · simp [selectConfig, load_icons, hread]
  · simp [selectConfig, load_icons, hread]

/-- Witness for C10 with a filesystem where every read fails. -/
theorem c10_witness :
    noRead (pathJoin "src" CONFIG_FILE) = none ∧
    (selectConfig true (some "src") noRead noParse (some "src") = .proceed [] "src" ∧
      selectConfig false (some "src") noRead noParse (some "src") = .fatal ∧
      runPipeline noAssets [] = .ok [] ∧
      emitScopeOrdered [] = emitEnum ++ "\n\n" ++ emitGlobal []) :=
  ⟨rfl, c10_docsrs_discards_io_error noRead noParse "src" noAssets rfl⟩

end MaterialIcons
